import Mathlib

set_option maxRecDepth 40000
set_option maxHeartbeats 1000000
set_option synthInstance.maxHeartbeats 400000
set_option synthInstance.maxSize 1000

/-!
  Verification development for the k3s cluster provisioning program
  (a Pulumi program creating a VPC, subnet, routing, two security groups,
  one K3s master instance, two K3s worker instances and an nginx load
  balancer instance).

  The concrete resources, their dependency edges, their startup scripts,
  the template substitution, the configuration surface and the exported
  attributes are embedded here directly from the source program.  The
  scheduling and deferred-value semantics of the underlying engine are not
  part of the source tree; where they are needed they are modelled from the
  specification and marked as such.
-/

namespace K3sInfra

/-- The resources declared by the program, in declaration order. -/
inductive NodeId where
  | vpc
  | publicSubnet
  | igw
  | publicRouteTable
  | route
  | routeTableAssociation
  | lbSecurityGroup
  | k3sSecurityGroup
  | master
  | worker1
  | worker2
  | nginx
deriving DecidableEq, Repr, Fintype

/-- Dependency edges of the program: node `n` depends on node `d` iff one of
the arguments in the creation call of `n` references an output of `d`.
Read off the source: the VPC id, subnet id and cidr, route table id, gateway
id, security-group ids, and the private addresses consumed by the worker and
load-balancer user-data computations. -/
def deps : NodeId → List NodeId
  | .vpc => []
  | .publicSubnet => [.vpc]
  | .igw => [.vpc]
  | .publicRouteTable => [.vpc]
  | .route => [.publicRouteTable, .igw]
  | .routeTableAssociation => [.publicSubnet, .publicRouteTable]
  | .lbSecurityGroup => [.vpc]
  | .k3sSecurityGroup => [.vpc, .publicSubnet]
  | .master => [.k3sSecurityGroup, .publicSubnet]
  | .worker1 => [.k3sSecurityGroup, .publicSubnet, .master]
  | .worker2 => [.k3sSecurityGroup, .publicSubnet, .master]
  | .nginx => [.lbSecurityGroup, .publicSubnet, .master, .worker1, .worker2]

/-- The raw configuration: each recognized option may be set or unset. -/
structure Config where
  vpc_cidr : Option String
  public_subnet_cidr : Option String
  availability_zone : Option String
  ami_id : Option String
  k3s_token : Option String

/-- The literal settings obtained from the configuration before graph
construction. -/
structure Settings where
  vpc_cidr : String
  public_subnet_cidr : String
  availability_zone : String
  ami_id : String
  k3s_token : String
deriving DecidableEq

/-- The Python `value or default` idiom on an optional string option: the
default is used both when the option is unset (`None`) and when it is set
to the empty string, which is falsy in Python. -/
def pyOr (v : Option String) (d : String) : String :=
  match v with
  | none => d
  | some s => if s = "" then d else s

/-- Resolution of the configuration, with the defaults of the source:
`config.get("x") or "default"`. -/
def resolveConfig (c : Config) : Settings where
  vpc_cidr := pyOr c.vpc_cidr "10.0.0.0/16"
  public_subnet_cidr := pyOr c.public_subnet_cidr "10.0.1.0/24"
  availability_zone := pyOr c.availability_zone "ap-southeast-1a"
  ami_id := pyOr c.ami_id "ami-060e277c0d4cce553"
  k3s_token := pyOr c.k3s_token "super-secret-token"

/-- The option keys the program reads from its configuration: the five
`config.get(...)` calls of the source, in order. -/
def recognizedConfigKeys : List String :=
  ["vpc_cidr", "public_subnet_cidr", "availability_zone", "ami_id", "k3s_token"]

/-- The compute instances declared by the program. -/
def instanceNodes : List NodeId := [.master, .worker1, .worker2, .nginx]

/-- The worker instances declared by the program: exactly two, fixed in the
source (`worker1-instance`, `worker2-instance`); the count is not read from
the configuration. -/
def workerNodes : List NodeId := [.worker1, .worker2]

/-- A CIDR entry of a security-group rule: either a literal string or a
reference to the public subnet's cidr block output. -/
inductive CidrRef where
  | lit (s : String)
  | subnetCidr
deriving DecidableEq, Repr

/-- One ingress or egress rule of a security group, with the fields the
source sets (protocol, port range, cidr blocks). -/
structure SGRule where
  protocol : String
  from_port : Nat
  to_port : Nat
  cidr_blocks : List CidrRef
deriving DecidableEq, Repr

/-- Ingress rules of the load-balancer security group `lb-secgrp`. -/
def lb_ingress : List SGRule :=
  [ ⟨"tcp", 80, 80, [.lit "0.0.0.0/0"]⟩,
    ⟨"tcp", 443, 443, [.lit "0.0.0.0/0"]⟩,
    ⟨"tcp", 22, 22, [.lit "0.0.0.0/0"]⟩ ]

/-- Egress rules of the load-balancer security group. -/
def lb_egress : List SGRule := [⟨"-1", 0, 0, [.lit "0.0.0.0/0"]⟩]

/-- Ingress rules of the cluster security group `k3s-secgrp`. -/
def k3s_ingress : List SGRule :=
  [ ⟨"tcp", 6443, 6443, [.subnetCidr]⟩,
    ⟨"udp", 8472, 8472, [.subnetCidr]⟩,
    ⟨"tcp", 22, 22, [.lit "0.0.0.0/0"]⟩,
    ⟨"tcp", 80, 80, [.subnetCidr]⟩,
    ⟨"tcp", 443, 443, [.subnetCidr]⟩,
    ⟨"-1", 0, 0, [.subnetCidr]⟩ ]

/-- Egress rules of the cluster security group. -/
def k3s_egress : List SGRule := [⟨"-1", 0, 0, [.lit "0.0.0.0/0"]⟩]

/-- The SSH administration rule of the cluster security group, the only
ingress rule of `k3s-secgrp` that is open to the world. -/
def sshRule : SGRule := ⟨"tcp", 22, 22, [.lit "0.0.0.0/0"]⟩

/-- The security groups attached to each compute instance
(`vpc_security_group_ids` in the source); empty for non-instances. -/
def instanceSecurityGroups : NodeId → List NodeId
  | .master => [.k3sSecurityGroup]
  | .worker1 => [.k3sSecurityGroup]
  | .worker2 => [.k3sSecurityGroup]
  | .nginx => [.lbSecurityGroup]
  | _ => []

/-- Whether a rule set admits TCP traffic on port `p` from somewhere. -/
def admitsTcp (rules : List SGRule) (p : Nat) : Prop :=
  ∃ r ∈ rules, (r.protocol = "tcp" ∨ r.protocol = "-1") ∧
    r.from_port ≤ p ∧ p ≤ r.to_port

/-- The attribute of a resource that an export refers to. -/
inductive Attr where
  | rid
  | publicIp
  | privateIp
deriving DecidableEq, Repr

/-- The flat export map of the program: the sixteen `pulumi.export` calls,
in source order, each mapping a key to a resource attribute. -/
def exportedAttributes : List (String × NodeId × Attr) :=
  [ ("vpc_id", .vpc, .rid),
    ("public_subnet_id", .publicSubnet, .rid),
    ("igw_id", .igw, .rid),
    ("public_route_table_id", .publicRouteTable, .rid),
    ("nginx_instance_id", .nginx, .rid),
    ("nginx_instance_ip", .nginx, .publicIp),
    ("nginx_private_ip", .nginx, .privateIp),
    ("master_instance_id", .master, .rid),
    ("master_instance_ip", .master, .publicIp),
    ("master_private_ip", .master, .privateIp),
    ("worker1_instance_id", .worker1, .rid),
    ("worker1_instance_ip", .worker1, .publicIp),
    ("worker1_private_ip", .worker1, .privateIp),
    ("worker2_instance_id", .worker2, .rid),
    ("worker2_instance_ip", .worker2, .publicIp),
    ("worker2_private_ip", .worker2, .privateIp) ]

/-! Startup scripts.  Braces and single quotes inside the shell text are
written with hexadecimal escapes; otherwise the strings are letter for
letter the literals of the source program. -/

/-- The nginx load-balancer user-data template of the source, with the three
address placeholders still in place. -/
def nginx_user_data : String :=
  "#!/bin/bash\napt-get update\napt-get install -y nginx\n\n# Configure nginx as load balancer for K3s API server\ncat > /etc/nginx/nginx.conf << \x27EOF\x27\nevents \x7b\x7d\nstream \x7b\n    upstream k3s_servers \x7b\n        server MASTER_PRIVATE_IP:6443;\n        server WORKER1_PRIVATE_IP:6443;\n        server WORKER2_PRIVATE_IP:6443;\n    \x7d\n    server \x7b\n        listen 6443;\n        proxy_pass k3s_servers;\n    \x7d\n\x7d\nEOF\n\nsystemctl enable nginx\nsystemctl restart nginx\n"

/-- The template text before the first `server ` keyword of the backend list. -/
def nginxHead : String :=
  "#!/bin/bash\napt-get update\napt-get install -y nginx\n\n# Configure nginx as load balancer for K3s API server\ncat > /etc/nginx/nginx.conf << \x27EOF\x27\nevents \x7b\x7d\nstream \x7b\n    upstream k3s_servers \x7b\n        "

/-- The `server ` keyword that precedes each backend address. -/
def nginxSrv : String := "server "

/-- The `:6443;` port suffix that follows each backend address. -/
def nginxPort : String := ":6443;"

/-- The separator between two backend lines. -/
def nginxSep : String := "\n        "

/-- The template text after the last backend line. -/
def nginxTail : String :=
  "\n    \x7d\n    server \x7b\n        listen 6443;\n        proxy_pass k3s_servers;\n    \x7d\n\x7d\nEOF\n\nsystemctl enable nginx\nsystemctl restart nginx\n"

/-- Template segment before the master placeholder. -/
def segA : String := nginxHead ++ nginxSrv

/-- Template segment between two consecutive placeholders. -/
def segB : String := nginxPort ++ nginxSep ++ nginxSrv

/-- Template segment after the last placeholder. -/
def segD : String := nginxPort ++ nginxTail

/-- The master address placeholder token. -/
def patM : String := "MASTER_PRIVATE_IP"

/-- The first worker address placeholder token. -/
def patW1 : String := "WORKER1_PRIVATE_IP"

/-- The second worker address placeholder token. -/
def patW2 : String := "WORKER2_PRIVATE_IP"

/-- The master startup script text up to the token assignment. -/
def masterHead : String :=
  "#!/bin/bash\n# Install K3s server\ncurl -sfL https://get.k3s.io | "

/-- The master startup script text before the interpolated join secret. -/
def masterPre : String := masterHead ++ "K3S_TOKEN=\""

/-- The master startup script text after the interpolated join secret:
cluster self-initialization, then the readiness polling loop, then the
kubeconfig copy. -/
def masterPost : String :=
  "\" sh -s - server \\\n  --cluster-init\n\n# Wait for K3s to be ready\nuntil kubectl get nodes 2>/dev/null; do\n    echo \"Waiting for K3s to start...\"\n    sleep 5\ndone\n\n# Get kubeconfig for external access\ncp /etc/rancher/k3s/k3s.yaml /home/ubuntu/k3s.yaml\nchown ubuntu:ubuntu /home/ubuntu/k3s.yaml\n"

/-- The master startup script of the source, an f-string interpolating the
cluster join secret (`k3s_token`) and nothing else. -/
def master_user_data (tok : String) : String := masterPre ++ (tok ++ masterPost)

/-- The worker join script text before the interpolated join secret. -/
def workerPre : String :=
  "#!/bin/bash\n# Install K3s agent\ncurl -sfL https://get.k3s.io | K3S_TOKEN=\""

/-- The worker join script text between the join secret and the master
address. -/
def workerMid : String := "\" K3S_URL=https://"

/-- The worker join script text after the master address. -/
def workerSuf : String := ":6443 sh -s -\n"

/-- The worker join script of the source, an f-string interpolating exactly
two values: the cluster join secret and the master's private address. -/
def worker_user_data (tok ip : String) : String :=
  workerPre ++ (tok ++ (workerMid ++ (ip ++ workerSuf)))

/-- Python `str.replace` on character lists: replace each non-overlapping
occurrence of `pat`, scanning left to right and continuing after the
replacement text.  The program only calls it with the nonempty placeholder
tokens, so the empty-pattern case returns the input unchanged. -/
def pyReplace (pat r : List Char) : List Char → List Char
  | [] => []
  | c :: cs =>
    if pat ≠ [] ∧ pat <+: (c :: cs) then
      r ++ pyReplace pat r ((c :: cs).drop pat.length)
    else
      c :: pyReplace pat r cs
termination_by l => l.length
decreasing_by
  · rename_i h
    simp only [List.length_drop, List.length_cons]
    have hpat : 0 < pat.length := List.length_pos.mpr h.1
    omega
  · simp

/-- Python `str.replace` lifted to strings. -/
def pyReplaceStr (s pat r : String) : String :=
  ⟨pyReplace pat.data r.data s.data⟩

/-- The final nginx user data of the source: the template with the three
address placeholders replaced, in source order, by the resolved private
addresses of the master and the two workers. -/
def nginx_user_data_final (m w1 w2 : String) : String :=
  pyReplaceStr (pyReplaceStr (pyReplaceStr nginx_user_data patM m) patW1 w1) patW2 w2

/-- The decimal dot character of an address. -/
def addrDot : Char := '.'

/-- A character that can occur in a dotted-decimal address. -/
def goodChar (c : Char) : Bool := c.isDigit || c == addrDot

/-- No two adjacent characters of the list are both address characters.
The placeholder tokens satisfy this (their only digits are the isolated
worker indices), which is what keeps a token from straddling an inserted
address. -/
def noTwoGood : List Char → Bool
  | [] => true
  | [_] => true
  | a :: b :: rest => (!(goodChar a && goodChar b)) && noTwoGood (b :: rest)

/-- A resolved private address string: at least two characters, all digits
and dots (every IPv4 dotted quad qualifies). -/
def isAddrString (s : String) : Prop :=
  2 ≤ s.data.length ∧ ∀ c ∈ s.data, goodChar c = true

instance (s : String) : Decidable (isAddrString s) :=
  inferInstanceAs (Decidable (2 ≤ s.data.length ∧ ∀ c ∈ s.data, goodChar c = true))

/-! The provisioning engine.  The engine itself (deferred values, the
scheduler, the template gate) is not part of the source tree; the following
small-step model is modelled from the specification: a node's creation call
may be issued only when all its dependencies are created, a creation failure
settles the node, a node with a failed dependency is skipped with an
upstream failure and is never attempted, outputs (here: the private
address) are resolved from the attributes returned by the creation call at
the moment the node is created, and the in-node readiness loops are opaque
events the engine does not wait for. -/

/-- Errors of the engine model.  Modelled from the spec: the error taxonomy
of the specification restricted to what node execution can produce. -/
inductive EngineError where
  | providerError (msg : String)
  | upstreamFailure
deriving DecidableEq, Repr

/-- Lifecycle state of a node.  Modelled from the spec. -/
inductive NodeState where
  | unstarted
  | created
  | failed (e : EngineError)
deriving DecidableEq, Repr

/-- Whether a lifecycle state is a failure state. -/
def NodeState.isFailed : NodeState → Bool
  | .failed _ => true
  | _ => false

/-- Engine state: each node's lifecycle state and its private-address
output, `none` while the owning node is not created.  Modelled from the
spec. -/
structure PState where
  status : NodeId → NodeState
  addr : NodeId → Option String

/-- Observable events of a provisioning run.  Modelled from the spec:
`create n ip` is a successful creation call returning private address `ip`,
`provFail` a failed creation call, `skipUpstream` a node skipped because a
dependency failed, `ready n` the in-node readiness loop of `n` reporting
success (opaque to the engine). -/
inductive Event where
  | create (n : NodeId) (ip : String)
  | provFail (n : NodeId) (msg : String)
  | skipUpstream (n : NodeId)
  | ready (n : NodeId)
deriving DecidableEq, Repr

/-- The engine state in which no node has been attempted. -/
def initState : PState :=
  { status := fun _ => .unstarted, addr := fun _ => none }

/-- Settle node `n` to lifecycle state `st`, leaving addresses unchanged. -/
def setStatus (s : PState) (n : NodeId) (st : NodeState) : PState :=
  { s with status := fun m => if m = n then st else s.status m }

/-- Record a successful creation of `n` with private address `ip`. -/
def setCreated (s : PState) (n : NodeId) (ip : String) : PState :=
  { status := fun m => if m = n then .created else s.status m,
    addr := fun m => if m = n then some ip else s.addr m }

/-- One step of the engine.  Modelled from the spec: a creation call
(successful or not) requires every dependency to be created; a node with a
failed dependency can only be skipped with an upstream failure; a readiness
event may occur any time after its node is created and changes nothing the
engine can see. -/
inductive Step : PState → Event → PState → Prop where
  | create {s : PState} {n : NodeId} {ip : String}
      (h1 : s.status n = .unstarted)
      (h2 : ∀ d ∈ deps n, s.status d = .created) :
      Step s (.create n ip) (setCreated s n ip)
  | provFail {s : PState} {n : NodeId} {msg : String}
      (h1 : s.status n = .unstarted)
      (h2 : ∀ d ∈ deps n, s.status d = .created) :
      Step s (.provFail n msg) (setStatus s n (.failed (.providerError msg)))
  | skipUpstream {s : PState} {n : NodeId}
      (h1 : s.status n = .unstarted)
      (h2 : ∃ d ∈ deps n, (s.status d).isFailed = true) :
      Step s (.skipUpstream n) (setStatus s n (.failed .upstreamFailure))
  | ready {s : PState} {n : NodeId}
      (h1 : s.status n = .created) :
      Step s (.ready n) s

/-- A provisioning run: a sequence of steps from the initial state. -/
inductive Run : List Event → PState → Prop where
  | nil : Run [] initState
  | snoc {tr : List Event} {s : PState} {e : Event} {s' : PState} :
      Run tr s → Step s e s' → Run (tr ++ [e]) s'

/-- Executable form of one step: `some` of the next state when the event's
guard holds, `none` otherwise. -/
def applyEvent (s : PState) : Event → Option PState
  | .create n ip =>
    if s.status n = .unstarted ∧ ∀ d ∈ deps n, s.status d = .created then
      some (setCreated s n ip)
    else none
  | .provFail n msg =>
    if s.status n = .unstarted ∧ ∀ d ∈ deps n, s.status d = .created then
      some (setStatus s n (.failed (.providerError msg)))
    else none
  | .skipUpstream n =>
    if s.status n = .unstarted ∧ ∃ d ∈ deps n, (s.status d).isFailed = true then
      some (setStatus s n (.failed .upstreamFailure))
    else none
  | .ready n => if s.status n = .created then some s else none

/-- Executable form of a run. -/
def runExec (tr : List Event) : Option PState :=
  tr.foldlM applyEvent initState

/-- All twelve resources, for exhaustive state comparisons. -/
def allNodes : List NodeId :=
  [.vpc, .publicSubnet, .igw, .publicRouteTable, .route, .routeTableAssociation,
   .lbSecurityGroup, .k3sSecurityGroup, .master, .worker1, .worker2, .nginx]

/-- Executable pointwise equality of engine states. -/
def pstateEqb (s t : PState) : Bool :=
  allNodes.all fun n => decide (s.status n = t.status n) && decide (s.addr n = t.addr n)

/-- Executable check that a trace is a run ending in state `s`. -/
def runCheck (tr : List Event) (s : PState) : Bool :=
  match runExec tr with
  | some t => pstateEqb t s
  | none => false

/-- A state in which every node has been settled one way or the other. -/
def AllSettled (s : PState) : Prop := ∀ n, s.status n ≠ .unstarted

/-- The worker join script as gated by the engine: available exactly when
the master's private address has resolved.  Modelled from the spec: the
template gate is a combination over the script's deferred bindings. -/
def workerUserDataOf (c : Config) (s : PState) : Option String :=
  (s.addr .master).map (fun ip => worker_user_data (resolveConfig c).k3s_token ip)

/-- The master startup script as gated by the engine: always available,
since its only binding, the join secret, is a literal. -/
def masterUserDataOf (c : Config) (_s : PState) : Option String :=
  some (master_user_data (resolveConfig c).k3s_token)

/-- The load-balancer script as gated by the engine: available exactly when
the master's and both workers' private addresses have all resolved.
Modelled from the spec: the template gate combines all three deferred
addresses. -/
def nginxUserDataOf (_c : Config) (s : PState) : Option String :=
  match s.addr .master, s.addr .worker1, s.addr .worker2 with
  | some a, some b, some c => some (nginx_user_data_final a b c)
  | _, _, _ => none

/-- Sample attribute values for the concrete runs used as witnesses. -/
def ipOf : NodeId → String
  | .vpc => "vpc-0"
  | .publicSubnet => "subnet-0"
  | .igw => "igw-0"
  | .publicRouteTable => "rtb-0"
  | .route => "r-0"
  | .routeTableAssociation => "rta-0"
  | .lbSecurityGroup => "sg-lb-0"
  | .k3sSecurityGroup => "sg-k3s-0"
  | .master => "10.0.1.10"
  | .worker1 => "10.0.1.11"
  | .worker2 => "10.0.1.12"
  | .nginx => "10.0.1.20"

/-- A dependency-respecting creation order of all twelve resources. -/
def creationOrder : List NodeId :=
  [.vpc, .publicSubnet, .igw, .publicRouteTable, .route, .routeTableAssociation,
   .lbSecurityGroup, .k3sSecurityGroup, .master, .worker1, .worker2, .nginx]

/-- A complete successful run: every resource created in order. -/
def fullTrace : List Event := creationOrder.map (fun n => Event.create n (ipOf n))

/-- The final state of `fullTrace`. -/
def fullState : PState :=
  { status := fun _ => .created, addr := fun n => some (ipOf n) }

/-- A run in which the master's creation call fails with a quota error and
the three dependent instances are skipped. -/
def failTrace : List Event :=
  [ .create .vpc (ipOf .vpc), .create .publicSubnet (ipOf .publicSubnet),
    .create .igw (ipOf .igw), .create .publicRouteTable (ipOf .publicRouteTable),
    .create .route (ipOf .route),
    .create .routeTableAssociation (ipOf .routeTableAssociation),
    .create .lbSecurityGroup (ipOf .lbSecurityGroup),
    .create .k3sSecurityGroup (ipOf .k3sSecurityGroup),
    .provFail .master "quota exceeded",
    .skipUpstream .worker1, .skipUpstream .worker2, .skipUpstream .nginx ]

/-- The final state of `failTrace`. -/
def failState : PState :=
  { status := fun n =>
      match n with
      | .master => .failed (.providerError "quota exceeded")
      | .worker1 => .failed .upstreamFailure
      | .worker2 => .failed .upstreamFailure
      | .nginx => .failed .upstreamFailure
      | _ => .created,
    addr := fun n =>
      match n with
      | .master => none
      | .worker1 => none
      | .worker2 => none
      | .nginx => none
      | m => some (ipOf m) }

/-- A short run that creates the master and nothing after it; in particular
no readiness event has occurred. -/
def shortTrace : List Event :=
  [ .create .vpc (ipOf .vpc), .create .publicSubnet (ipOf .publicSubnet),
    .create .k3sSecurityGroup (ipOf .k3sSecurityGroup),
    .create .master "10.0.1.10" ]

/-- The final state of `shortTrace`. -/
def shortState : PState :=
  { status := fun n =>
      match n with
      | .vpc => .created
      | .publicSubnet => .created
      | .k3sSecurityGroup => .created
      | .master => .created
      | _ => .unstarted,
    addr := fun n =>
      match n with
      | .vpc => some (ipOf .vpc)
      | .publicSubnet => some (ipOf .publicSubnet)
      | .k3sSecurityGroup => some (ipOf .k3sSecurityGroup)
      | .master => some "10.0.1.10"
      | _ => none }

/-! Theorems.  First the decomposition of the source template into its
literal segments, certifying that the named segments really are a cut of the
source string. -/

/-- The nginx template of the source is exactly the head segment, the three
placeholder tokens and the connecting segments. -/
theorem nginx_template_split :
    nginx_user_data = segA ++ patM ++ (segB ++ (patW1 ++ (segB ++ (patW2 ++ segD)))) := by
  rfl

/-- C7 counterexample: the configuration surface of the program recognizes
no option besides network CIDR, subnet CIDR, availability zone, machine
image and join secret — in particular no worker-count option — while the
worker set is fixed at two in the program text. -/
theorem claim_C7_counterexample :
    (¬ ∃ k ∈ recognizedConfigKeys,
        k ≠ "vpc_cidr" ∧ k ≠ "public_subnet_cidr" ∧ k ≠ "availability_zone" ∧
        k ≠ "ami_id" ∧ k ≠ "k3s_token") ∧
    workerNodes.length = 2 := by
  decide

/-- C7 (amended): the configuration surface recognizes exactly the five
options network CIDR, subnet CIDR, availability zone, base machine image
identifier and cluster join secret; each is a literal fixed before graph
construction, taking the source's default when unset; the worker count is
not configurable — the program always declares exactly two workers. -/
theorem claim_C7_amended :
    recognizedConfigKeys =
      ["vpc_cidr", "public_subnet_cidr", "availability_zone", "ami_id", "k3s_token"] ∧
    (∀ v1 v2 v3 v4 v5 : String, v1 ≠ "" → v2 ≠ "" → v3 ≠ "" → v4 ≠ "" → v5 ≠ "" →
      resolveConfig ⟨some v1, some v2, some v3, some v4, some v5⟩ = ⟨v1, v2, v3, v4, v5⟩) ∧
    resolveConfig ⟨none, none, none, none, none⟩ =
      ⟨"10.0.0.0/16", "10.0.1.0/24", "ap-southeast-1a", "ami-060e277c0d4cce553",
        "super-secret-token"⟩ ∧
    resolveConfig ⟨some "", some "", some "", some "", some ""⟩ =
      ⟨"10.0.0.0/16", "10.0.1.0/24", "ap-southeast-1a", "ami-060e277c0d4cce553",
        "super-secret-token"⟩ ∧
    workerNodes = [NodeId.worker1, NodeId.worker2] := by
  refine ⟨rfl, ?_, by decide, by decide, rfl⟩
  intro v1 v2 v3 v4 v5 h1 h2 h3 h4 h5
  simp [resolveConfig, pyOr, h1, h2, h3, h4, h5]

/-- C7 witness: resolution at concrete non-empty settings. -/
theorem claim_C7_witness :
    resolveConfig ⟨some "10.9.0.0/16", some "10.9.1.0/24", some "us-east-1a",
        some "ami-000", some "tok"⟩ =
      ⟨"10.9.0.0/16", "10.9.1.0/24", "us-east-1a", "ami-000", "tok"⟩ :=
  claim_C7_amended.2.1 "10.9.0.0/16" "10.9.1.0/24" "us-east-1a" "ami-000" "tok"
    (by decide) (by decide) (by decide) (by decide) (by decide)

/-- C8: the export map keys are pairwise distinct, and the map contains the
instance id, public address and private address of the control node, of each
of the two workers and of the load balancer. -/
theorem claim_C8_exports :
    (exportedAttributes.map Prod.fst).Nodup ∧
    ("master_instance_id", NodeId.master, Attr.rid) ∈ exportedAttributes ∧
    ("master_instance_ip", NodeId.master, Attr.publicIp) ∈ exportedAttributes ∧
    ("master_private_ip", NodeId.master, Attr.privateIp) ∈ exportedAttributes ∧
    ("worker1_instance_id", NodeId.worker1, Attr.rid) ∈ exportedAttributes ∧
    ("worker1_instance_ip", NodeId.worker1, Attr.publicIp) ∈ exportedAttributes ∧
    ("worker1_private_ip", NodeId.worker1, Attr.privateIp) ∈ exportedAttributes ∧
    ("worker2_instance_id", NodeId.worker2, Attr.rid) ∈ exportedAttributes ∧
    ("worker2_instance_ip", NodeId.worker2, Attr.publicIp) ∈ exportedAttributes ∧
    ("worker2_private_ip", NodeId.worker2, Attr.privateIp) ∈ exportedAttributes ∧
    ("nginx_instance_id", NodeId.nginx, Attr.rid) ∈ exportedAttributes ∧
    ("nginx_instance_ip", NodeId.nginx, Attr.publicIp) ∈ exportedAttributes ∧
    ("nginx_private_ip", NodeId.nginx, Attr.privateIp) ∈ exportedAttributes := by
  decide

/-- C9: the load-balancer security group admits ingress exactly on TCP
ports 80, 443 and 22 (each from anywhere), hence not on 6443, although the
rendered nginx configuration listens on 6443; the load-balancer instance
attaches exactly this security group. -/
theorem claim_C9_lb_ports :
    (∀ p : Nat, admitsTcp lb_ingress p ↔ (p = 80 ∨ p = 443 ∨ p = 22)) ∧
    ¬ admitsTcp lb_ingress 6443 ∧
    (∀ r ∈ lb_ingress, r.cidr_blocks = [CidrRef.lit "0.0.0.0/0"]) ∧
    "listen 6443;".data <:+: nginx_user_data.data ∧
    instanceSecurityGroups NodeId.nginx = [NodeId.lbSecurityGroup] := by
  have hiff : ∀ p : Nat, admitsTcp lb_ingress p ↔ (p = 80 ∨ p = 443 ∨ p = 22) := by
    intro p
    constructor
    · rintro ⟨r, hr, _, h1, h2⟩
      simp only [lb_ingress, List.mem_cons, List.not_mem_nil, or_false] at hr
      rcases hr with rfl | rfl | rfl <;> simp_all <;> omega
    · rintro (rfl | rfl | rfl)
      · exact ⟨⟨"tcp", 80, 80, [.lit "0.0.0.0/0"]⟩, by simp [lb_ingress], Or.inl rfl,
          le_rfl, le_rfl⟩
      · exact ⟨⟨"tcp", 443, 443, [.lit "0.0.0.0/0"]⟩, by simp [lb_ingress], Or.inl rfl,
          le_rfl, le_rfl⟩
      · exact ⟨⟨"tcp", 22, 22, [.lit "0.0.0.0/0"]⟩, by simp [lb_ingress], Or.inl rfl,
          le_rfl, le_rfl⟩
  refine ⟨hiff, ?_, by decide, by decide, rfl⟩
  intro h
  rcases (hiff 6443).mp h with h | h | h <;> omega

/-- C9 witness: the characterization of admitted ports, applied at 6443. -/
theorem claim_C9_witness : admitsTcp lb_ingress 6443 ↔ (6443 = 80 ∨ 6443 = 443 ∨ 6443 = 22) :=
  claim_C9_lb_ports.1 6443

/-- C10: in the cluster security group every ingress rule except the SSH
rule restricts its source to the public subnet's CIDR block; the SSH rule
alone is open to the world; the K3s API, VXLAN, HTTP, HTTPS and
all-protocol rules are all present and subnet-scoped; and the control node
and both workers attach exactly this security group. -/
theorem claim_C10_k3s_sg :
    (∀ r ∈ k3s_ingress, r = sshRule ∨ r.cidr_blocks = [CidrRef.subnetCidr]) ∧
    sshRule ∈ k3s_ingress ∧
    sshRule = ⟨"tcp", 22, 22, [CidrRef.lit "0.0.0.0/0"]⟩ ∧
    (⟨"tcp", 6443, 6443, [CidrRef.subnetCidr]⟩ : SGRule) ∈ k3s_ingress ∧
    (⟨"udp", 8472, 8472, [CidrRef.subnetCidr]⟩ : SGRule) ∈ k3s_ingress ∧
    (⟨"tcp", 80, 80, [CidrRef.subnetCidr]⟩ : SGRule) ∈ k3s_ingress ∧
    (⟨"tcp", 443, 443, [CidrRef.subnetCidr]⟩ : SGRule) ∈ k3s_ingress ∧
    (⟨"-1", 0, 0, [CidrRef.subnetCidr]⟩ : SGRule) ∈ k3s_ingress ∧
    instanceSecurityGroups NodeId.master = [NodeId.k3sSecurityGroup] ∧
    instanceSecurityGroups NodeId.worker1 = [NodeId.k3sSecurityGroup] ∧
    instanceSecurityGroups NodeId.worker2 = [NodeId.k3sSecurityGroup] := by
  decide

/-- C10 witness: the subnet-scoping alternative, applied to the VXLAN rule. -/
theorem claim_C10_witness :
    (⟨"udp", 8472, 8472, [CidrRef.subnetCidr]⟩ : SGRule) = sshRule ∨
    (⟨"udp", 8472, 8472, [CidrRef.subnetCidr]⟩ : SGRule).cidr_blocks = [CidrRef.subnetCidr] :=
  claim_C10_k3s_sg.1 _ (by decide)

/-! Lemmas about the engine model. -/

/-- An event whose guard passes in the executable semantics is a step of the
relational semantics. -/
theorem applyEvent_sound {s : PState} {e : Event} {s' : PState}
    (h : applyEvent s e = some s') : Step s e s' := by
  cases e with
  | create n ip =>
    simp only [applyEvent] at h
    split at h
    · rename_i hc
      cases h
      exact Step.create hc.1 hc.2
    · cases h
  | provFail n msg =>
    simp only [applyEvent] at h
    split at h
    · rename_i hc
      cases h
      exact Step.provFail hc.1 hc.2
    · cases h
  | skipUpstream n =>
    simp only [applyEvent] at h
    split at h
    · rename_i hc
      cases h
      exact Step.skipUpstream hc.1 hc.2
    · cases h
  | ready n =>
    simp only [applyEvent] at h
    split at h
    · rename_i hc
      cases h
      exact Step.ready hc
    · cases h

/-- A trace accepted by the executable semantics is a run. -/
theorem runExec_sound : ∀ (tr : List Event) (s : PState), runExec tr = some s → Run tr s := by
  intro tr
  induction tr using List.reverseRecOn with
  | nil =>
    intro s h
    simp only [runExec, List.foldlM_nil] at h
    cases h
    exact Run.nil
  | append_singleton l e ih =>
    intro s h
    simp only [runExec, List.foldlM_append, List.foldlM_cons, List.foldlM_nil] at h
    rcases Option.bind_eq_some.mp h with ⟨mid, h1, h2⟩
    rcases Option.bind_eq_some.mp h2 with ⟨fin, h3, h4⟩
    cases h4
    exact Run.snoc (ih mid h1) (applyEvent_sound h3)

/-- States that agree on every node are equal. -/
theorem pstateEqb_sound {s t : PState} (h : pstateEqb s t = true) : s = t := by
  have hall : ∀ n ∈ allNodes, s.status n = t.status n ∧ s.addr n = t.addr n := by
    intro n hn
    have := List.all_eq_true.mp h n hn
    simpa using this
  have hs : s.status = t.status := by
    funext n
    exact (hall n (by cases n <;> simp [allNodes])).1
  have ha : s.addr = t.addr := by
    funext n
    exact (hall n (by cases n <;> simp [allNodes])).2
  cases s
  cases t
  simp_all

/-- A trace accepted by the executable checker is a run ending in the given
state. -/
theorem runCheck_sound {tr : List Event} {s : PState} (h : runCheck tr s = true) :
    Run tr s := by
  unfold runCheck at h
  cases hre : runExec tr with
  | none =>
    rw [hre] at h
    cases h
  | some t =>
    rw [hre] at h
    exact (pstateEqb_sound h) ▸ runExec_sound tr t hre

/-- A step never changes the lifecycle state of an already settled node. -/
theorem step_status_unchanged {s : PState} {e : Event} {s' : PState}
    (hstep : Step s e s') (n : NodeId) (h : s.status n ≠ .unstarted) :
    s'.status n = s.status n := by
  cases hstep with
  | @create m ip h1 h2 =>
    simp only [setCreated]
    split
    · rename_i hnm
      subst hnm
      exact absurd h1 h
    · rfl
  | @provFail m msg h1 h2 =>
    simp only [setStatus]
    split
    · rename_i hnm
      subst hnm
      exact absurd h1 h
    · rfl
  | @skipUpstream m h1 h2 =>
    simp only [setStatus]
    split
    · rename_i hnm
      subst hnm
      exact absurd h1 h
    · rfl
  | ready h1 => rfl

/-- After a successful creation event for `n`, node `n` stays created. -/
theorem created_of_create_mem {tr : List Event} {s : PState} (hrun : Run tr s) :
    ∀ {n : NodeId} {ip : String}, Event.create n ip ∈ tr → s.status n = .created := by
  induction hrun with
  | nil =>
    intro n ip h
    simp at h
  | @snoc tr' s' ev s'' hrun' hstep ih =>
    intro n ip h
    rcases List.mem_append.mp h with h | h
    · have hc := ih h
      rw [step_status_unchanged hstep n (by simp [hc]), hc]
    · rw [List.mem_singleton] at h
      subst h
      cases hstep with
      | create h1 h2 => simp [setCreated]

/-- After a failed creation event for `n`, node `n` stays failed with the
provider error. -/
theorem failed_of_provFail_mem {tr : List Event} {s : PState} (hrun : Run tr s) :
    ∀ {n : NodeId} {msg : String}, Event.provFail n msg ∈ tr →
      s.status n = .failed (.providerError msg) := by
  induction hrun with
  | nil =>
    intro n msg h
    simp at h
  | @snoc tr' s' ev s'' hrun' hstep ih =>
    intro n msg h
    rcases List.mem_append.mp h with h | h
    · have hc := ih h
      rw [step_status_unchanged hstep n (by simp [hc]), hc]
    · rw [List.mem_singleton] at h
      subst h
      cases hstep with
      | provFail h1 h2 => simp [setStatus]

/-- A created node got created by some creation event of the trace. -/
theorem create_mem_of_created {tr : List Event} {s : PState} (hrun : Run tr s) :
    ∀ {n : NodeId}, s.status n = .created → ∃ ip, Event.create n ip ∈ tr := by
  induction hrun with
  | nil =>
    intro n h
    simp [initState] at h
  | @snoc tr' s' ev s'' hrun' hstep ih =>
    intro n h
    cases hstep with
    | @create m ip h1 h2 =>
      by_cases hnm : n = m
      · subst hnm
        exact ⟨ip, by simp⟩
      · obtain ⟨j, hj⟩ := ih (by simpa [setCreated, hnm] using h)
        exact ⟨j, by simp [hj]⟩
    | @provFail m msg h1 h2 =>
      by_cases hnm : n = m
      · subst hnm
        simp [setStatus] at h
      · obtain ⟨j, hj⟩ := ih (by simpa [setStatus, hnm] using h)
        exact ⟨j, by simp [hj]⟩
    | @skipUpstream m h1 h2 =>
      by_cases hnm : n = m
      · subst hnm
        simp [setStatus] at h
      · obtain ⟨j, hj⟩ := ih (by simpa [setStatus, hnm] using h)
        exact ⟨j, by simp [hj]⟩
    | ready h1 =>
      obtain ⟨j, hj⟩ := ih h
      exact ⟨j, by simp [hj]⟩

/-- A resolved address comes from the creation event that returned it. -/
theorem create_mem_of_addr {tr : List Event} {s : PState} (hrun : Run tr s) :
    ∀ {n : NodeId} {ip : String}, s.addr n = some ip → Event.create n ip ∈ tr := by
  induction hrun with
  | nil =>
    intro n ip h
    simp [initState] at h
  | @snoc tr' s' ev s'' hrun' hstep ih =>
    intro n ip h
    cases hstep with
    | @create m j h1 h2 =>
      by_cases hnm : n = m
      · subst hnm
        have : ip = j := by
          have := h
          simp [setCreated] at this
          exact this.symm
        subst this
        simp
      · have := @ih n ip (by simpa [setCreated, hnm] using h)
        simp [this]
    | @provFail m msg h1 h2 =>
      have := @ih n ip (by simpa [setStatus] using h)
      simp [this]
    | @skipUpstream m h1 h2 =>
      have := @ih n ip (by simpa [setStatus] using h)
      simp [this]
    | ready h1 =>
      have := @ih n ip h
      simp [this]

/-- A creation event's returned address stays resolved. -/
theorem addr_of_create_mem {tr : List Event} {s : PState} (hrun : Run tr s) :
    ∀ {n : NodeId} {ip : String}, Event.create n ip ∈ tr → s.addr n = some ip := by
  induction hrun with
  | nil =>
    intro n ip h
    simp at h
  | @snoc tr' s' ev s'' hrun' hstep ih =>
    intro n ip h
    rcases List.mem_append.mp h with h | h
    · have ha := ih h
      have hc := created_of_create_mem hrun' h
      cases hstep with
      | @create m j h1 h2 =>
        have hnm : n ≠ m := by
          intro he
          subst he
          rw [hc] at h1
          cases h1
        simpa [setCreated, hnm] using ha
      | @provFail m msg h1 h2 => simpa [setStatus] using ha
      | @skipUpstream m h1 h2 => simpa [setStatus] using ha
      | ready h1 => exact ha
    · rw [List.mem_singleton] at h
      subst h
      cases hstep with
      | create h1 h2 => simp [setCreated]

/-- A node for which no creation event succeeded has no resolved address. -/
theorem addr_none_of_no_create {tr : List Event} {s : PState} (hrun : Run tr s)
    {n : NodeId} (hno : ∀ ip, Event.create n ip ∉ tr) : s.addr n = none := by
  cases h : s.addr n with
  | none => rfl
  | some ip => exact absurd (create_mem_of_addr hrun h) (hno ip)

/-- A failed node failed either by being skipped on an upstream failure or
by its own failed creation call. -/
theorem failed_cases {tr : List Event} {s : PState} (hrun : Run tr s) :
    ∀ {n : NodeId} {err : EngineError}, s.status n = .failed err →
      (err = .upstreamFailure ∧ Event.skipUpstream n ∈ tr) ∨
      (∃ m, err = .providerError m ∧ Event.provFail n m ∈ tr) := by
  induction hrun with
  | nil =>
    intro n err h
    simp [initState] at h
  | @snoc tr' s' ev s'' hrun' hstep ih =>
    intro n err h
    cases hstep with
    | @create m ip h1 h2 =>
      by_cases hnm : n = m
      · subst hnm
        simp [setCreated] at h
      · rcases ih (by simpa [setCreated, hnm] using h) with ⟨he, hmem⟩ | ⟨mm, he, hmem⟩
        · exact Or.inl ⟨he, by simp [hmem]⟩
        · exact Or.inr ⟨mm, he, by simp [hmem]⟩
    | @provFail m msg h1 h2 =>
      by_cases hnm : n = m
      · subst hnm
        have he : err = EngineError.providerError msg := by
          have := h
          simp [setStatus] at this
          exact this.symm
        exact Or.inr ⟨msg, he, by simp⟩
      · rcases ih (by simpa [setStatus, hnm] using h) with ⟨he, hmem⟩ | ⟨mm, he, hmem⟩
        · exact Or.inl ⟨he, by simp [hmem]⟩
        · exact Or.inr ⟨mm, he, by simp [hmem]⟩
    | @skipUpstream m h1 h2 =>
      by_cases hnm : n = m
      · subst hnm
        have he : err = EngineError.upstreamFailure := by
          have := h
          simp [setStatus] at this
          exact this.symm
        exact Or.inl ⟨he, by simp⟩
      · rcases ih (by simpa [setStatus, hnm] using h) with ⟨he, hmem⟩ | ⟨mm, he, hmem⟩
        · exact Or.inl ⟨he, by simp [hmem]⟩
        · exact Or.inr ⟨mm, he, by simp [hmem]⟩
    | ready h1 =>
      rcases ih h with ⟨he, hmem⟩ | ⟨mm, he, hmem⟩
      · exact Or.inl ⟨he, by simp [hmem]⟩
      · exact Or.inr ⟨mm, he, by simp [hmem]⟩

/-- Any event of a run splits the run: there is a state reached by the
prefix before the event from which the event itself steps. -/
theorem run_decomp {tr : List Event} {s : PState} (hrun : Run tr s) :
    ∀ (u : List Event) (e : Event) (v : List Event), tr = u ++ e :: v →
      ∃ s1 s2, Run u s1 ∧ Step s1 e s2 := by
  induction hrun with
  | nil =>
    intro u e v h
    exact absurd h (by simp)
  | @snoc tr' s' ev s'' hrun' hstep ih =>
    intro u e v h
    rcases List.eq_nil_or_concat v with rfl | ⟨v', a, rfl⟩
    · have h' : tr' ++ [ev] = u ++ [e] := h
      obtain ⟨rfl, he⟩ := List.append_inj' h' rfl
      cases he
      exact ⟨s', s'', hrun', hstep⟩
    · have h' : tr' ++ [ev] = (u ++ e :: v') ++ [a] := by
        rw [h]
        simp
      obtain ⟨htr, he⟩ := List.append_inj' h' rfl
      exact ih u e v' htr

/-- If the master is never created in a run, then no node that declares the
master as a dependency is ever attempted: no creation call, successful or
failed, can be issued for it. -/
theorem master_dep_not_attempted {tr : List Event} {s : PState} (hrun : Run tr s)
    (hnom : ∀ j, Event.create NodeId.master j ∉ tr) (n : NodeId)
    (hdep : NodeId.master ∈ deps n) :
    (∀ ip, Event.create n ip ∉ tr) ∧ (∀ m, Event.provFail n m ∉ tr) := by
  constructor
  · intro ip hmem
    obtain ⟨u, v, huv⟩ := List.append_of_mem hmem
    obtain ⟨s1, s2, hrun1, hstep⟩ := run_decomp hrun u _ v huv
    cases hstep with
    | create h1 h2 =>
      obtain ⟨j, hj⟩ := create_mem_of_created hrun1 (h2 NodeId.master hdep)
      exact hnom j (huv ▸ List.mem_append_left _ hj)
  · intro m hmem
    obtain ⟨u, v, huv⟩ := List.append_of_mem hmem
    obtain ⟨s1, s2, hrun1, hstep⟩ := run_decomp hrun u _ v huv
    cases hstep with
    | provFail h1 h2 =>
      obtain ⟨j, hj⟩ := create_mem_of_created hrun1 (h2 NodeId.master hdep)
      exact hnom j (huv ▸ List.mem_append_left _ hj)

/-! The ordering and failure-propagation claims. -/

/-- C1: in every run, whenever a worker's creation call occurs, some earlier
point of the trace created the master and the state at the moment of the
worker's creation call already holds the master's resolved private address;
the worker join script is gated on exactly the master address (available iff
that address is resolved), and the script itself binds exactly two values:
the join secret and the master address. -/
theorem claim_C1_worker_join_gating (tr : List Event) (s : PState) (hrun : Run tr s) :
    (∀ u v (ip : String), tr = u ++ Event.create NodeId.worker1 ip :: v →
      ∃ s1, Run u s1 ∧ ∃ j, Event.create NodeId.master j ∈ u ∧
        s1.addr NodeId.master = some j) ∧
    (∀ u v (ip : String), tr = u ++ Event.create NodeId.worker2 ip :: v →
      ∃ s1, Run u s1 ∧ ∃ j, Event.create NodeId.master j ∈ u ∧
        s1.addr NodeId.master = some j) ∧
    (∀ (c : Config) (st : PState),
      (workerUserDataOf c st).isSome ↔ (st.addr NodeId.master).isSome) ∧
    (∀ tok ip, worker_user_data tok ip =
      workerPre ++ (tok ++ (workerMid ++ (ip ++ workerSuf)))) := by
  refine ⟨?_, ?_, ?_, fun _ _ => rfl⟩
  · intro u v ip h
    obtain ⟨s1, s2, hrun1, hstep⟩ := run_decomp hrun u _ v h
    cases hstep with
    | create h1 h2 =>
      obtain ⟨j, hj⟩ := create_mem_of_created hrun1 (h2 NodeId.master (by simp [deps]))
      exact ⟨s1, hrun1, j, hj, addr_of_create_mem hrun1 hj⟩
  · intro u v ip h
    obtain ⟨s1, s2, hrun1, hstep⟩ := run_decomp hrun u _ v h
    cases hstep with
    | create h1 h2 =>
      obtain ⟨j, hj⟩ := create_mem_of_created hrun1 (h2 NodeId.master (by simp [deps]))
      exact ⟨s1, hrun1, j, hj, addr_of_create_mem hrun1 hj⟩
  · intro c st
    cases h : st.addr NodeId.master <;> simp [workerUserDataOf, h]

/-- C1 witness: the successful twelve-step run, split at the worker1
creation call. -/
theorem claim_C1_witness :
    ∃ s1, Run (fullTrace.take 9) s1 ∧ ∃ j, Event.create NodeId.master j ∈ fullTrace.take 9 ∧
      s1.addr NodeId.master = some j :=
  (claim_C1_worker_join_gating fullTrace fullState
      (runCheck_sound (by decide))).1
    (fullTrace.take 9) (fullTrace.drop 10) "10.0.1.11" (by decide)

/-- C3: if the master's creation call fails, then in any run neither worker
nor the load balancer is ever attempted (no creation call of either kind is
issued for them); once the run has settled every node they are failed with
an upstream-failure cause; and none of the three has a resolved address. -/
theorem claim_C3_upstream_failure (tr : List Event) (s : PState) (msg : String)
    (hrun : Run tr s) (hfail : Event.provFail NodeId.master msg ∈ tr) :
    (∀ ip, Event.create NodeId.worker1 ip ∉ tr) ∧
    (∀ m, Event.provFail NodeId.worker1 m ∉ tr) ∧
    (∀ ip, Event.create NodeId.worker2 ip ∉ tr) ∧
    (∀ m, Event.provFail NodeId.worker2 m ∉ tr) ∧
    (∀ ip, Event.create NodeId.nginx ip ∉ tr) ∧
    (∀ m, Event.provFail NodeId.nginx m ∉ tr) ∧
    (AllSettled s →
      s.status NodeId.worker1 = .failed .upstreamFailure ∧
      s.status NodeId.worker2 = .failed .upstreamFailure ∧
      s.status NodeId.nginx = .failed .upstreamFailure) ∧
    s.addr NodeId.worker1 = none ∧ s.addr NodeId.worker2 = none ∧
    s.addr NodeId.nginx = none := by
  have hmf : s.status NodeId.master = .failed (.providerError msg) :=
    failed_of_provFail_mem hrun hfail
  have hnom : ∀ j, Event.create NodeId.master j ∉ tr := by
    intro j hj
    rw [created_of_create_mem hrun hj] at hmf
    cases hmf
  have hw1 := master_dep_not_attempted hrun hnom NodeId.worker1 (by simp [deps])
  have hw2 := master_dep_not_attempted hrun hnom NodeId.worker2 (by simp [deps])
  have hng := master_dep_not_attempted hrun hnom NodeId.nginx (by simp [deps])
  have hterm : ∀ n : NodeId,
      (∀ ip, Event.create n ip ∉ tr) → (∀ m, Event.provFail n m ∉ tr) →
      s.status n ≠ .unstarted → s.status n = .failed .upstreamFailure := by
    intro n hnc hnp hns
    cases h : s.status n with
    | unstarted => exact absurd h hns
    | created =>
      obtain ⟨j, hj⟩ := create_mem_of_created hrun h
      exact absurd hj (hnc j)
    | failed err =>
      rcases failed_cases hrun h with ⟨he, _⟩ | ⟨mm, he, hmem⟩
      · rw [he]
      · exact absurd hmem (hnp mm)
  refine ⟨hw1.1, hw1.2, hw2.1, hw2.2, hng.1, hng.2, ?_, ?_, ?_, ?_⟩
  · intro hall
    exact ⟨hterm _ hw1.1 hw1.2 (hall _), hterm _ hw2.1 hw2.2 (hall _),
      hterm _ hng.1 hng.2 (hall _)⟩
  · exact addr_none_of_no_create hrun hw1.1
  · exact addr_none_of_no_create hrun hw2.1
  · exact addr_none_of_no_create hrun hng.1

/-- C3 witness: the concrete run in which the master's creation fails with
a quota error. -/
theorem claim_C3_witness :
    (∀ ip, Event.create NodeId.worker1 ip ∉ failTrace) ∧
    (∀ m, Event.provFail NodeId.worker1 m ∉ failTrace) ∧
    (∀ ip, Event.create NodeId.worker2 ip ∉ failTrace) ∧
    (∀ m, Event.provFail NodeId.worker2 m ∉ failTrace) ∧
    (∀ ip, Event.create NodeId.nginx ip ∉ failTrace) ∧
    (∀ m, Event.provFail NodeId.nginx m ∉ failTrace) ∧
    (AllSettled failState →
      failState.status NodeId.worker1 = .failed .upstreamFailure ∧
      failState.status NodeId.worker2 = .failed .upstreamFailure ∧
      failState.status NodeId.nginx = .failed .upstreamFailure) ∧
    failState.addr NodeId.worker1 = none ∧ failState.addr NodeId.worker2 = none ∧
    failState.addr NodeId.nginx = none :=
  claim_C3_upstream_failure failTrace failState "quota exceeded"
    (runCheck_sound (by decide)) (by decide)

/-- C6 counterexample: a run that creates the master resolves its private
address at the moment the creation call returns, with no readiness event of
the master's polling loop anywhere in the trace — the address is not
published only after the readiness loop succeeds. -/
theorem claim_C6_counterexample :
    ∃ tr s, Run tr s ∧ (s.addr NodeId.master).isSome ∧
      Event.ready NodeId.master ∉ tr :=
  ⟨shortTrace, shortState, runCheck_sound (by decide), by decide, by decide⟩

/-- C6 (amended): the control node's startup script self-initializes with
the shared join secret (its script is available to the engine in every
state, the secret being a literal), and the script then polls local
cluster-readiness in a fixed-interval loop until the control-plane API
answers; but the control node's private address is published exactly when
its creation call returns — resolved iff the trace contains the master's
creation event — not only after the readiness loop succeeds, which the
engine never observes. -/
theorem claim_C6_amended (tok : String) (tr : List Event) (s : PState)
    (hrun : Run tr s) :
    master_user_data tok = masterPre ++ (tok ++ masterPost) ∧
    ("K3S_TOKEN=\"".data ++ tok.data) <:+: (master_user_data tok).data ∧
    "until kubectl get nodes 2>/dev/null; do".data <:+: (master_user_data tok).data ∧
    "sleep 5".data <:+: (master_user_data tok).data ∧
    (∀ (c : Config) (st : PState),
      masterUserDataOf c st = some (master_user_data (resolveConfig c).k3s_token)) ∧
    (∀ ip, s.addr NodeId.master = some ip ↔ Event.create NodeId.master ip ∈ tr) := by
  refine ⟨rfl, ?_, ?_, ?_, fun _ _ => rfl, ?_⟩
  · exact ⟨masterHead.data, masterPost.data, by simp [master_user_data, masterPre,
      String.data, List.append_assoc]⟩
  · have h1 : "until kubectl get nodes 2>/dev/null; do".data <:+: masterPost.data := by
      decide
    have h2 : masterPost.data <:+ (master_user_data tok).data := by
      refine ⟨masterPre.data ++ tok.data, ?_⟩
      simp [master_user_data, List.append_assoc]
    exact h1.trans h2.isInfix
  · have h1 : "sleep 5".data <:+: masterPost.data := by decide
    have h2 : masterPost.data <:+ (master_user_data tok).data := by
      refine ⟨masterPre.data ++ tok.data, ?_⟩
      simp [master_user_data, List.append_assoc]
    exact h1.trans h2.isInfix
  · intro ip
    exact ⟨fun h => create_mem_of_addr hrun h, fun h => addr_of_create_mem hrun h⟩

/-- C6 witness: the address-at-creation characterization, applied to the
successful twelve-step run. -/
theorem claim_C6_witness :
    fullState.addr NodeId.master = some "10.0.1.10" ↔
      Event.create NodeId.master "10.0.1.10" ∈ fullTrace :=
  (claim_C6_amended "super-secret-token" fullTrace fullState
    (runCheck_sound (by decide))).2.2.2.2.2 "10.0.1.10"

/-! Lemmas about Python-style replacement. -/

/-- Replacement on the empty string. -/
theorem pyReplace_nil (pat r : List Char) : pyReplace pat r [] = [] := by
  simp [pyReplace]

/-- Replacement step when the pattern matches at the head. -/
theorem pyReplace_cons_pos {pat : List Char} (r : List Char) {c : Char} {cs : List Char}
    (hp : pat ≠ []) (hpre : pat <+: (c :: cs)) :
    pyReplace pat r (c :: cs) = r ++ pyReplace pat r ((c :: cs).drop pat.length) := by
  rw [pyReplace]
  rw [if_pos ⟨hp, hpre⟩]

/-- Replacement step when the pattern does not match at the head. -/
theorem pyReplace_cons_neg {pat : List Char} (r : List Char) {c : Char} {cs : List Char}
    (hpre : ¬ pat <+: (c :: cs)) :
    pyReplace pat r (c :: cs) = c :: pyReplace pat r cs := by
  rw [pyReplace]
  rw [if_neg (fun hc => hpre hc.2)]

/-- The tail of a list without adjacent address characters again has none. -/
theorem noTwoGood_tail {c : Char} {t : List Char} (h : noTwoGood (c :: t) = true) :
    noTwoGood t = true := by
  cases t with
  | nil => rfl
  | cons b r =>
    simp only [noTwoGood, Bool.and_eq_true] at h
    exact h.2

/-- Dropping a front part preserves the absence of adjacent address
characters. -/
theorem noTwoGood_append_right :
    ∀ (u t₂ : List Char), noTwoGood (u ++ t₂) = true → noTwoGood t₂ = true := by
  intro u
  induction u with
  | nil =>
    intro t₂ h
    simpa using h
  | cons c u' ih =>
    intro t₂ h
    exact ih t₂ (noTwoGood_tail h)

/-- A token that starts and ends with non-address characters and has no two
adjacent address characters, sitting as a prefix of `x ++ (m ++ y)` with `m`
an address segment of length at least two, is already a prefix of `x`: it
can neither reach into nor straddle the address segment. -/
theorem prefix_trans_addr (m y : List Char) (hgood : ∀ c ∈ m, goodChar c = true)
    (hm2 : 2 ≤ m.length) :
    ∀ (x t : List Char),
      (t.head?.all fun c => !goodChar c) = true →
      (t.getLast?.all fun c => !goodChar c) = true →
      noTwoGood t = true →
      t <+: x ++ (m ++ y) → t <+: x := by
  intro x t hhead hlast htwo hpre
  by_cases hlen : t.length ≤ x.length
  · exact List.prefix_of_prefix_length_le hpre (List.prefix_append x (m ++ y)) hlen
  · push_neg at hlen
    have hx : x <+: t :=
      List.prefix_of_prefix_length_le (List.prefix_append x (m ++ y)) hpre
        (Nat.le_of_lt hlen)
    obtain ⟨t₂, rfl⟩ := hx
    have ht₂ : t₂ <+: m ++ y := (List.prefix_append_right_inj x).mp hpre
    have ht₂ne : t₂ ≠ [] := by
      intro hh
      subst hh
      simp at hlen
    exfalso
    rcases List.prefix_or_prefix_of_prefix ht₂ (List.prefix_append m y) with h2 | h2
    · cases t₂ with
      | nil => exact ht₂ne rfl
      | cons c1 t₂' =>
        cases t₂' with
        | nil =>
          have hc1 : goodChar c1 = true := hgood c1 (h2.subset (by simp))
          have hl : (x ++ [c1]).getLast? = some c1 := by
            simp
          rw [hl] at hlast
          simp [hc1] at hlast
        | cons c2 t₂'' =>
          have hc1 : goodChar c1 = true := hgood c1 (h2.subset (by simp))
          have hc2 : goodChar c2 = true := hgood c2 (h2.subset (by simp))
          have hsub : noTwoGood (c1 :: c2 :: t₂'') = true :=
            noTwoGood_append_right x _ htwo
          simp [noTwoGood, hc1, hc2] at hsub
    · cases m with
      | nil => simp at hm2
      | cons c1 m' =>
        cases m' with
        | nil => simp at hm2
        | cons c2 m'' =>
          obtain ⟨r, rfl⟩ := h2
          have hc1 : goodChar c1 = true := hgood c1 (by simp)
          have hc2 : goodChar c2 = true := hgood c2 (by simp)
          have hsub : noTwoGood ((c1 :: c2 :: m'') ++ r) = true :=
            noTwoGood_append_right x _ htwo
          simp [noTwoGood, List.cons_append, hc1, hc2] at hsub

/-- The scan of a pattern of non-address characters passes over an address
segment without matching. -/
theorem pyReplace_addr_pass (pat r y : List Char) (hp : pat ≠ [])
    (hhead : (pat.head?.all fun c => !goodChar c) = true) :
    ∀ m, (∀ c ∈ m, goodChar c = true) →
      pyReplace pat r (m ++ y) = m ++ pyReplace pat r y := by
  intro m
  induction m with
  | nil =>
    intro _
    simp
  | cons b m' ih =>
    intro hgood
    have hnp : ¬ pat <+: b :: (m' ++ y) := by
      cases pat with
      | nil => exact absurd rfl hp
      | cons a pt =>
        intro hc
        have hab : a = b := (List.cons_prefix_cons.mp hc).1
        have hfa : goodChar a = false := by simpa using hhead
        have hb : goodChar b = true := hgood b (by simp)
        rw [hab, hb] at hfa
        cases hfa
    rw [List.cons_append, pyReplace_cons_neg r hnp,
      ih (fun c hc => hgood c (by simp [hc]))]
    rfl

/-- Replacement on a string without any occurrence of the pattern is the
identity. -/
theorem pyReplace_no_occur (pat r : List Char) (_hp : pat ≠ []) :
    ∀ s, ¬ pat <:+: s → pyReplace pat r s = s := by
  intro s
  induction s with
  | nil =>
    intro _
    exact pyReplace_nil pat r
  | cons c cs ih =>
    intro h
    have h1 : ¬ pat <+: c :: cs := fun hc => h hc.isInfix
    rw [pyReplace_cons_neg r h1, ih (fun hi => h (hi.trans (List.suffix_cons c cs).isInfix))]

/-- The scan replaces a pattern occurrence sitting right after a clean
segment `x`: no suffix of `x` starts an occurrence, so the scan walks
through `x` and fires exactly at the seam. -/
theorem pyReplace_scan (pat r y : List Char) (hp : pat ≠ []) :
    ∀ x, (∀ x2 ∈ x.tails, x2 ≠ [] → ¬ pat <+: (x2 ++ (pat ++ y))) →
      pyReplace pat r (x ++ (pat ++ y)) = x ++ (r ++ pyReplace pat r y) := by
  intro x
  induction x with
  | nil =>
    intro _
    rw [List.nil_append, List.nil_append]
    cases pat with
    | nil => exact absurd rfl hp
    | cons p pt =>
      rw [List.cons_append]
      rw [pyReplace_cons_pos r hp (by rw [← List.cons_append]; exact List.prefix_append _ _)]
      congr 1
      rw [← List.cons_append, List.drop_left]
  | cons d x' ih =>
    intro hcl
    have hd : ¬ pat <+: d :: (x' ++ (pat ++ y)) :=
      hcl (d :: x') ((List.mem_tails _ _).mpr List.suffix_rfl) (by simp)
    rw [List.cons_append, pyReplace_cons_neg r hd]
    rw [ih (fun x2 hx2 hne => hcl x2
      ((List.mem_tails _ _).mpr (((List.mem_tails _ _).mp hx2).trans
        (List.suffix_cons d x'))) hne)]
    rfl

/-- Replacement of a non-address pattern distributes over a nonempty address
segment in the middle of the scanned string. -/
theorem pyReplace_split (pat r m : List Char) (hp : pat ≠ [])
    (hhead : (pat.head?.all fun c => !goodChar c) = true)
    (hlast : (pat.getLast?.all fun c => !goodChar c) = true)
    (htwo : noTwoGood pat = true)
    (hgood : ∀ c ∈ m, goodChar c = true) (hm2 : 2 ≤ m.length) :
    ∀ x y, pyReplace pat r (x ++ (m ++ y)) =
      pyReplace pat r x ++ (m ++ pyReplace pat r y) := by
  have main : ∀ fuel x, x.length ≤ fuel → ∀ y,
      pyReplace pat r (x ++ (m ++ y)) = pyReplace pat r x ++ (m ++ pyReplace pat r y) := by
    intro fuel
    induction fuel with
    | zero =>
      intro x hx y
      rw [List.length_eq_zero.mp (Nat.le_zero.mp hx)]
      rw [List.nil_append, pyReplace_nil, List.nil_append]
      exact pyReplace_addr_pass pat r y hp hhead m hgood
    | succ fuel ihf =>
      intro x hx y
      cases x with
      | nil =>
        rw [List.nil_append, pyReplace_nil, List.nil_append]
        exact pyReplace_addr_pass pat r y hp hhead m hgood
      | cons d x' =>
        by_cases hpre : pat <+: d :: x'
        · have hlen : pat.length ≤ (d :: x').length := hpre.length_le
          have hpre2 : pat <+: (d :: x') ++ (m ++ y) :=
            hpre.trans (List.prefix_append _ _)
          rw [List.cons_append]
          rw [pyReplace_cons_pos r hp (by rw [← List.cons_append]; exact hpre2)]
          rw [pyReplace_cons_pos r hp hpre]
          rw [← List.cons_append, List.drop_append_of_le_length hlen]
          rw [ihf ((d :: x').drop pat.length) (by
            have hplen : 0 < pat.length := List.length_pos.mpr hp
            simp only [List.length_drop, List.length_cons]
            simp only [List.length_cons] at hx
            omega) y]
          simp [List.append_assoc]
        · have hnp : ¬ pat <+: d :: (x' ++ (m ++ y)) := fun hc =>
            hpre (prefix_trans_addr m y hgood hm2 (d :: x') pat hhead hlast htwo hc)
          rw [List.cons_append, pyReplace_cons_neg r hnp, pyReplace_cons_neg r hpre]
          rw [ihf x' (by simp only [List.length_cons] at hx; omega) y]
          rfl
  intro x y
  exact main x.length x le_rfl y

/-- A pattern of non-address characters inside `m ++ y` with `m` an address
segment lies inside `y`. -/
theorem infix_addr_skip (pat : List Char) (hp : pat ≠ [])
    (hhead : (pat.head?.all fun c => !goodChar c) = true) :
    ∀ m y, (∀ c ∈ m, goodChar c = true) → pat <:+: m ++ y → pat <:+: y := by
  intro m
  induction m with
  | nil =>
    intro y _ h
    simpa using h
  | cons b m' ih =>
    intro y hgood h
    rw [List.cons_append] at h
    rcases List.infix_cons_iff.mp h with hpre | hrest
    · cases pat with
      | nil => exact absurd rfl hp
      | cons a pt =>
        obtain ⟨hab, _⟩ := List.cons_prefix_cons.mp hpre
        have hfa : goodChar a = false := by simpa using hhead
        have hb : goodChar b = true := hgood b (by simp)
        rw [hab, hb] at hfa
        cases hfa
    · exact ih y (fun c hc => hgood c (by simp [hc])) hrest

/-- A pattern of non-address characters occurring in `x ++ (m ++ y)` with
`m` a nonempty address segment occurs in `x` or in `y`: it cannot straddle
the inserted address. -/
theorem no_addr_straddle (pat : List Char) (hp : pat ≠ [])
    (hhead : (pat.head?.all fun c => !goodChar c) = true)
    (hlast : (pat.getLast?.all fun c => !goodChar c) = true)
    (htwo : noTwoGood pat = true) (m : List Char)
    (hgood : ∀ c ∈ m, goodChar c = true) (hm2 : 2 ≤ m.length) :
    ∀ x y, pat <:+: x ++ (m ++ y) → pat <:+: x ∨ pat <:+: y := by
  intro x
  induction x with
  | nil =>
    intro y h
    rw [List.nil_append] at h
    exact Or.inr (infix_addr_skip pat hp hhead m y hgood h)
  | cons d x' ih =>
    intro y h
    rw [List.cons_append] at h
    rcases List.infix_cons_iff.mp h with hpre | hrest
    · exact Or.inl
        (prefix_trans_addr m y hgood hm2 (d :: x') pat hhead hlast htwo
          (by rw [List.cons_append]; exact hpre)).isInfix
    · rcases ih y hrest with h1 | h2
      · exact Or.inl (h1.trans (List.suffix_cons d x').isInfix)
      · exact Or.inr h2

/-! Rendering of the load-balancer template. -/

/-- The template decomposition at the character level. -/
theorem nginx_template_split_data :
    nginx_user_data.data =
      segA.data ++ (patM.data ++ (segB.data ++ (patW1.data ++
        (segB.data ++ (patW2.data ++ segD.data))))) := by
  rfl

/-- Rendering the template with three address strings replaces the three
placeholders and nothing else: the result is the literal template segments
with the addresses statically embedded in between. -/
theorem nginx_render_decomp (m w1 w2 : String) (hm : isAddrString m)
    (h1 : isAddrString w1) (h2 : isAddrString w2) :
    (nginx_user_data_final m w1 w2).data =
      segA.data ++ (m.data ++ (segB.data ++ (w1.data ++
        (segB.data ++ (w2.data ++ segD.data))))) := by
  obtain ⟨hm2, hmgood⟩ := hm
  obtain ⟨h12, h1good⟩ := h1
  obtain ⟨h22, h2good⟩ := h2
  have hMne : patM.data ≠ [] := by decide
  have hW1ne : patW1.data ≠ [] := by decide
  have hW2ne : patW2.data ≠ [] := by decide
  have hW1head : (patW1.data.head?.all fun c => !goodChar c) = true := by decide
  have hW1last : (patW1.data.getLast?.all fun c => !goodChar c) = true := by decide
  have hW1two : noTwoGood patW1.data = true := by decide
  have hW2head : (patW2.data.head?.all fun c => !goodChar c) = true := by decide
  have hW2last : (patW2.data.getLast?.all fun c => !goodChar c) = true := by decide
  have hW2two : noTwoGood patW2.data = true := by decide
  have hstep1 : (pyReplaceStr nginx_user_data patM m).data =
      segA.data ++ (m.data ++ (segB.data ++ (patW1.data ++
        (segB.data ++ (patW2.data ++ segD.data))))) := by
    show pyReplace patM.data m.data nginx_user_data.data = _
    rw [nginx_template_split_data]
    rw [pyReplace_scan patM.data m.data
      (segB.data ++ (patW1.data ++ (segB.data ++ (patW2.data ++ segD.data))))
      hMne segA.data (by decide)]
    rw [pyReplace_no_occur patM.data m.data hMne
      (segB.data ++ (patW1.data ++ (segB.data ++ (patW2.data ++ segD.data))))
      (by decide)]
  have hstep2 : (pyReplaceStr (pyReplaceStr nginx_user_data patM m) patW1 w1).data =
      segA.data ++ (m.data ++ (segB.data ++ (w1.data ++
        (segB.data ++ (patW2.data ++ segD.data))))) := by
    show pyReplace patW1.data w1.data (pyReplaceStr nginx_user_data patM m).data = _
    rw [hstep1]
    rw [pyReplace_split patW1.data w1.data m.data hW1ne hW1head hW1last hW1two hmgood hm2]
    rw [pyReplace_no_occur patW1.data w1.data hW1ne segA.data (by decide)]
    rw [pyReplace_scan patW1.data w1.data
      (segB.data ++ (patW2.data ++ segD.data)) hW1ne segB.data (by decide)]
    rw [pyReplace_no_occur patW1.data w1.data hW1ne
      (segB.data ++ (patW2.data ++ segD.data)) (by decide)]
  show pyReplace patW2.data w2.data
    (pyReplaceStr (pyReplaceStr nginx_user_data patM m) patW1 w1).data = _
  rw [hstep2]
  rw [pyReplace_split patW2.data w2.data m.data hW2ne hW2head hW2last hW2two hmgood hm2]
  rw [pyReplace_no_occur patW2.data w2.data hW2ne segA.data (by decide)]
  rw [pyReplace_split patW2.data w2.data w1.data hW2ne hW2head hW2last hW2two h1good h12]
  rw [pyReplace_no_occur patW2.data w2.data hW2ne segB.data (by decide)]
  rw [pyReplace_scan patW2.data w2.data segD.data hW2ne segB.data (by decide)]
  rw [pyReplace_no_occur patW2.data w2.data hW2ne segD.data (by decide)]

/-- The rendered template, cut at the finest grain: each backend line is the
keyword `server `, an address, and the port suffix. -/
theorem nginx_render_atoms (m w1 w2 : String) (hm : isAddrString m)
    (h1 : isAddrString w1) (h2 : isAddrString w2) :
    (nginx_user_data_final m w1 w2).data =
      nginxHead.data ++ (("server ".data ++ (m.data ++ ":6443;".data)) ++ (nginxSep.data ++
        (("server ".data ++ (w1.data ++ ":6443;".data)) ++ (nginxSep.data ++
        (("server ".data ++ (w2.data ++ ":6443;".data)) ++ nginxTail.data))))) := by
  rw [nginx_render_decomp m w1 w2 hm h1 h2]
  have ha : segA.data = nginxHead.data ++ "server ".data := rfl
  have hb : segB.data = ":6443;".data ++ (nginxSep.data ++ "server ".data) := rfl
  have hd : segD.data = ":6443;".data ++ nginxTail.data := rfl
  rw [ha, hb, hd]
  simp [List.append_assoc]

/-- C4: for any triple of resolved address strings, the rendered
load-balancer script contains the three backend lines and none of the three
placeholder tokens: substitution is complete, literal text replacement. -/
theorem claim_C4_full_substitution (m w1 w2 : String) (hm : isAddrString m)
    (h1 : isAddrString w1) (h2 : isAddrString w2) :
    ("server ".data ++ (m.data ++ ":6443;".data)) <:+:
      (nginx_user_data_final m w1 w2).data ∧
    ("server ".data ++ (w1.data ++ ":6443;".data)) <:+:
      (nginx_user_data_final m w1 w2).data ∧
    ("server ".data ++ (w2.data ++ ":6443;".data)) <:+:
      (nginx_user_data_final m w1 w2).data ∧
    ¬ patM.data <:+: (nginx_user_data_final m w1 w2).data ∧
    ¬ patW1.data <:+: (nginx_user_data_final m w1 w2).data ∧
    ¬ patW2.data <:+: (nginx_user_data_final m w1 w2).data := by
  have hatoms := nginx_render_atoms m w1 w2 hm h1 h2
  have hdecomp := nginx_render_decomp m w1 w2 hm h1 h2
  obtain ⟨hm2, hmgood⟩ := hm
  obtain ⟨h12, h1good⟩ := h1
  obtain ⟨h22, h2good⟩ := h2
  have hno : ∀ pat : List Char, pat ≠ [] →
      (pat.head?.all fun c => !goodChar c) = true →
      (pat.getLast?.all fun c => !goodChar c) = true →
      noTwoGood pat = true →
      ¬ pat <:+: segA.data → ¬ pat <:+: segB.data → ¬ pat <:+: segD.data →
      ¬ pat <:+: (nginx_user_data_final m w1 w2).data := by
    intro pat hp hhead hlast htwo hA hB hD hcon
    rw [hdecomp] at hcon
    rcases no_addr_straddle pat hp hhead hlast htwo m.data hmgood hm2
      segA.data _ hcon with hx | hcon
    · exact hA hx
    rcases no_addr_straddle pat hp hhead hlast htwo w1.data h1good h12
      segB.data _ hcon with hx | hcon
    · exact hB hx
    rcases no_addr_straddle pat hp hhead hlast htwo w2.data h2good h22
      segB.data _ hcon with hx | hcon
    · exact hB hx
    · exact hD hcon
  refine ⟨?_, ?_, ?_,
    hno patM.data (by decide) (by decide) (by decide) (by decide) (by decide) (by decide)
      (by decide),
    hno patW1.data (by decide) (by decide) (by decide) (by decide) (by decide) (by decide)
      (by decide),
    hno patW2.data (by decide) (by decide) (by decide) (by decide) (by decide) (by decide)
      (by decide)⟩
  · exact ⟨nginxHead.data,
      nginxSep.data ++ (("server ".data ++ (w1.data ++ ":6443;".data)) ++ (nginxSep.data ++
        (("server ".data ++ (w2.data ++ ":6443;".data)) ++ nginxTail.data))),
      by rw [hatoms]; simp [List.append_assoc]⟩
  · exact ⟨nginxHead.data ++ (("server ".data ++ (m.data ++ ":6443;".data)) ++ nginxSep.data),
      nginxSep.data ++ (("server ".data ++ (w2.data ++ ":6443;".data)) ++ nginxTail.data),
      by rw [hatoms]; simp [List.append_assoc]⟩
  · exact ⟨nginxHead.data ++ (("server ".data ++ (m.data ++ ":6443;".data)) ++ (nginxSep.data ++
        (("server ".data ++ (w1.data ++ ":6443;".data)) ++ nginxSep.data))),
      nginxTail.data,
      by rw [hatoms]; simp [List.append_assoc]⟩

/-- C4 witness: rendering at three concrete addresses. -/
theorem claim_C4_witness :
    isAddrString "10.0.1.5" ∧
    ("server ".data ++ ("10.0.1.5".data ++ ":6443;".data)) <:+:
      (nginx_user_data_final "10.0.1.5" "10.0.1.6" "10.0.1.7").data ∧
    ¬ patM.data <:+: (nginx_user_data_final "10.0.1.5" "10.0.1.6" "10.0.1.7").data := by
  have h := claim_C4_full_substitution "10.0.1.5" "10.0.1.6" "10.0.1.7"
    (by decide) (by decide) (by decide)
  exact ⟨by decide, h.1, h.2.2.2.1⟩

/-- C2: in every run, whenever the load balancer's creation call occurs, the
master and both workers were created earlier and all three private
addresses are resolved in the state at that moment; the backend-list script
is gated on the combination of exactly those three addresses (available iff
all three are resolved); and the rendered script statically embeds the
resolved addresses between the literal template segments. -/
theorem claim_C2_lb_gating (tr : List Event) (s : PState) (hrun : Run tr s) :
    (∀ u v (ip : String), tr = u ++ Event.create NodeId.nginx ip :: v →
      ∃ s1, Run u s1 ∧
        (∃ a, Event.create NodeId.master a ∈ u ∧ s1.addr NodeId.master = some a) ∧
        (∃ b, Event.create NodeId.worker1 b ∈ u ∧ s1.addr NodeId.worker1 = some b) ∧
        (∃ c, Event.create NodeId.worker2 c ∈ u ∧ s1.addr NodeId.worker2 = some c)) ∧
    (∀ (c : Config) (st : PState), (nginxUserDataOf c st).isSome ↔
      ((st.addr NodeId.master).isSome ∧ (st.addr NodeId.worker1).isSome ∧
        (st.addr NodeId.worker2).isSome)) ∧
    (∀ m w1 w2, isAddrString m → isAddrString w1 → isAddrString w2 →
      (nginx_user_data_final m w1 w2).data =
        segA.data ++ (m.data ++ (segB.data ++ (w1.data ++
          (segB.data ++ (w2.data ++ segD.data)))))) := by
  refine ⟨?_, ?_, fun m w1 w2 hm h1 h2 => nginx_render_decomp m w1 w2 hm h1 h2⟩
  · intro u v ip h
    obtain ⟨s1, s2, hrun1, hstep⟩ := run_decomp hrun u _ v h
    cases hstep with
    | create h1 h2 =>
      obtain ⟨a, ha⟩ := create_mem_of_created hrun1 (h2 NodeId.master (by simp [deps]))
      obtain ⟨b, hb⟩ := create_mem_of_created hrun1 (h2 NodeId.worker1 (by simp [deps]))
      obtain ⟨c, hc⟩ := create_mem_of_created hrun1 (h2 NodeId.worker2 (by simp [deps]))
      exact ⟨s1, hrun1, ⟨a, ha, addr_of_create_mem hrun1 ha⟩,
        ⟨b, hb, addr_of_create_mem hrun1 hb⟩, ⟨c, hc, addr_of_create_mem hrun1 hc⟩⟩
  · intro c st
    cases ha : st.addr NodeId.master <;> cases hb : st.addr NodeId.worker1 <;>
      cases hc : st.addr NodeId.worker2 <;> simp [nginxUserDataOf, ha, hb, hc]

/-- C2 witness: the successful twelve-step run, split at the load
balancer's creation call. -/
theorem claim_C2_witness :
    ∃ s1, Run (fullTrace.take 11) s1 ∧
      (∃ a, Event.create NodeId.master a ∈ fullTrace.take 11 ∧
        s1.addr NodeId.master = some a) ∧
      (∃ b, Event.create NodeId.worker1 b ∈ fullTrace.take 11 ∧
        s1.addr NodeId.worker1 = some b) ∧
      (∃ c, Event.create NodeId.worker2 c ∈ fullTrace.take 11 ∧
        s1.addr NodeId.worker2 = some c) :=
  (claim_C2_lb_gating fullTrace fullState (runCheck_sound (by decide))).1
    (fullTrace.take 11) [] "10.0.1.20" (by decide)

/-! Unknown placeholders under the program's rendering. -/

/-- C5 counterexample: the program's rendering is the chain of the three
`str.replace` substitutions; applied to a template carrying an unknown
placeholder token it returns the script with the token left verbatim — it
does not fail, and indeed it has no error outcome at all. -/
theorem claim_C5_counterexample :
    pyReplaceStr (pyReplaceStr (pyReplaceStr
        "server UNKNOWN_PLACEHOLDER:6443;" patM "10.0.1.5") patW1 "10.0.1.6")
      patW2 "10.0.1.7" = "server UNKNOWN_PLACEHOLDER:6443;" ∧
    "UNKNOWN_PLACEHOLDER".data <:+: "server UNKNOWN_PLACEHOLDER:6443;".data := by
  have e1 : pyReplaceStr "server UNKNOWN_PLACEHOLDER:6443;" patM "10.0.1.5" =
      "server UNKNOWN_PLACEHOLDER:6443;" := by
    show String.mk (pyReplace patM.data "10.0.1.5".data
      "server UNKNOWN_PLACEHOLDER:6443;".data) = _
    rw [pyReplace_no_occur patM.data "10.0.1.5".data (by decide)
      "server UNKNOWN_PLACEHOLDER:6443;".data (by decide)]
  have e2 : pyReplaceStr "server UNKNOWN_PLACEHOLDER:6443;" patW1 "10.0.1.6" =
      "server UNKNOWN_PLACEHOLDER:6443;" := by
    show String.mk (pyReplace patW1.data "10.0.1.6".data
      "server UNKNOWN_PLACEHOLDER:6443;".data) = _
    rw [pyReplace_no_occur patW1.data "10.0.1.6".data (by decide)
      "server UNKNOWN_PLACEHOLDER:6443;".data (by decide)]
  have e3 : pyReplaceStr "server UNKNOWN_PLACEHOLDER:6443;" patW2 "10.0.1.7" =
      "server UNKNOWN_PLACEHOLDER:6443;" := by
    show String.mk (pyReplace patW2.data "10.0.1.7".data
      "server UNKNOWN_PLACEHOLDER:6443;".data) = _
    rw [pyReplace_no_occur patW2.data "10.0.1.7".data (by decide)
      "server UNKNOWN_PLACEHOLDER:6443;".data (by decide)]
  exact ⟨by rw [e1, e2, e3], by decide⟩

/-- C5 (amended): the program renders by total literal replacement of the
three known placeholder tokens and has no error path; any template text
containing none of the three known tokens — in particular any unknown
placeholder — passes through the whole substitution chain verbatim, for all
replacement values. -/
theorem claim_C5_unknown_kept (t : String)
    (hM : ¬ patM.data <:+: t.data) (hW1 : ¬ patW1.data <:+: t.data)
    (hW2 : ¬ patW2.data <:+: t.data) (m w1 w2 : String) :
    pyReplaceStr (pyReplaceStr (pyReplaceStr t patM m) patW1 w1) patW2 w2 = t := by
  have e1 : pyReplaceStr t patM m = t := by
    show String.mk (pyReplace patM.data m.data t.data) = t
    rw [pyReplace_no_occur patM.data m.data (by decide) t.data hM]
  have e2 : pyReplaceStr t patW1 w1 = t := by
    show String.mk (pyReplace patW1.data w1.data t.data) = t
    rw [pyReplace_no_occur patW1.data w1.data (by decide) t.data hW1]
  have e3 : pyReplaceStr t patW2 w2 = t := by
    show String.mk (pyReplace patW2.data w2.data t.data) = t
    rw [pyReplace_no_occur patW2.data w2.data (by decide) t.data hW2]
  rw [e1, e2, e3]

/-- C5 witness: the pass-through behaviour at a concrete template carrying
an unknown placeholder token. -/
theorem claim_C5_witness :
    pyReplaceStr (pyReplaceStr (pyReplaceStr
        "echo UNBOUND_TOKEN done" patM "10.0.1.5") patW1 "10.0.1.6")
      patW2 "10.0.1.7" = "echo UNBOUND_TOKEN done" :=
  claim_C5_unknown_kept "echo UNBOUND_TOKEN done"
    (by decide) (by decide) (by decide) "10.0.1.5" "10.0.1.6" "10.0.1.7"

end K3sInfra
